import Mathlib

/-!
Verification of the edge-tts-go repository (a Go client for a streaming
text-to-speech wire protocol) against its natural-language specification.

The Go source is shallowly embedded: byte slices become `List Nat`
(one `Nat` per byte), Go `string`s that are only compared or concatenated
become Lean `String`s, `float64` tick/offset values — which hold integral
100-nanosecond tick counts in every reachable state — become `Int`,
fallible functions return `Option`/`Except`, and the process-wide mutable
clock-skew state is passed explicitly.  Loops that Go drives by mutation
are embedded as structural recursions; where the decreasing measure is not
syntactic, the recursion carries explicit fuel that is always called with
a bound sufficient for every reachable input.
-/

namespace EdgeTTS

/-- Error taxonomy from `pkg/errors/errors.go`.  Message payloads that the
Go code builds from byte slices are carried as `List Nat`; purely textual
messages are carried as `String`. -/
inductive TTSErr where
  | unknownResponse (msg : List Nat)
  | unexpectedResponse (msg : List Nat)
  | noAudioReceived (msg : String)
  | webSocketErr (msg : String)
  | skewAdjustment (msg : String)
  | invalidReuse
  | dialFailure
deriving DecidableEq, Repr

/-- Bytes of a Lean string literal (ASCII in all uses here); models Go's
`[]byte(s)` conversion for the ASCII strings appearing in the source. -/
def strB (s : String) : List Nat :=
  s.data.map Char.toNat

/-- ASCII whitespace test on a byte; models `unicode.IsSpace` restricted to
the ASCII range (all whitespace appearing in the verified inputs). -/
def isSpaceB (b : Nat) : Bool :=
  b = 32 || b = 9 || b = 10 || b = 11 || b = 12 || b = 13

/-- Leading-whitespace trim on bytes. -/
def trimLeftB (l : List Nat) : List Nat :=
  l.dropWhile isSpaceB

/-- `bytes.TrimSpace`: drop leading and trailing whitespace bytes. -/
def trimSpaceB (l : List Nat) : List Nat :=
  ((l.dropWhile isSpaceB).reverse.dropWhile isSpaceB).reverse

/-- `strings.Fields`-style word count: number of maximal runs of
non-whitespace characters (only the count is ever used by the source). -/
def fieldsCount (s : String) : Nat :=
  go s.data false 0
where
  go : List Char → Bool → Nat → Nat
    | [], _, n => n
    | c :: rest, inWord, n =>
      if c.isWhitespace then go rest false n
      else if inWord then go rest true n
      else go rest true (n + 1)

/-! ## SubMaker (`pkg/submaker/submaker.go`) -/

/-- A subtitle cue.  Go fields `Index`, `Start`, `End`, `Content`;
`End` is renamed `stop` (Lean keyword), times are nanoseconds as `Int`. -/
structure Subtitle where
  index : Nat
  start : Int
  stop : Int
  content : String
deriving DecidableEq, Repr

/-- A chunk of data from the TTS service (`pkg/types/types.go`,
`TTSChunk`).  `Offset`/`Duration` are 100-ns ticks, integral in every
reachable state, embedded as `Int`. -/
structure TTSChunk where
  type : String
  data : List Nat
  duration : Int
  offset : Int
  text : String
deriving DecidableEq, Repr

/-- `SubMaker.Feed`: append a cue for a boundary chunk; any other chunk
type is an error and leaves the cue list unchanged.  The new cue's index
is `len(cues) + 1`; start/end convert ticks to nanoseconds via
`time.Duration(x / 10) * time.Microsecond`. -/
def Feed (cues : List Subtitle) (msg : TTSChunk) : Except String (List Subtitle) :=
  if msg.type ≠ "WordBoundary" ∧ msg.type ≠ "SentenceBoundary" then
    .error ("invalid message type, expected 'WordBoundary' or 'SentenceBoundary', got '" ++ msg.type ++ "'")
  else
    .ok (cues ++ [{ index := cues.length + 1
                    start := (msg.offset.tdiv 10) * 1000
                    stop := ((msg.offset + msg.duration).tdiv 10) * 1000
                    content := msg.text }])

/-- Combine an absorbed cue into the running cue, as in the body of
`MergeCues`' accumulation branch. -/
def combineCue (cur c : Subtitle) : Subtitle :=
  { cur with stop := c.stop, content := cur.content ++ " " ++ c.content }

/-- The `for _, cue := range sm.cues[1:]` loop of `MergeCues`:
`cur` is `currentCue`; returns `newCues` with the final `currentCue`
appended. -/
def mergeRun (words : Nat) (cur : Subtitle) : List Subtitle → List Subtitle
  | [] => [cur]
  | c :: rest =>
    if fieldsCount cur.content < words then
      mergeRun words (combineCue cur c) rest
    else
      cur :: mergeRun words c rest

/-- The re-indexing loop at the end of `MergeCues`
(`newCues[i].Index = i + 1`), unrolled from position `i`. -/
def reindexFrom (i : Nat) : List Subtitle → List Subtitle
  | [] => []
  | c :: rest => { c with index := i } :: reindexFrom (i + 1) rest

/-- `SubMaker.MergeCues`: reject non-positive `words`; empty cue lists are
returned unchanged; otherwise fold the cues and re-index `1..N`. -/
def MergeCues (words : Int) (cues : List Subtitle) : Except String (List Subtitle) :=
  if words ≤ 0 then
    .error "invalid number of words to merge"
  else
    match cues with
    | [] => .ok cues
    | c :: rest => .ok (reindexFrom 1 (mergeRun words.toNat c rest))

/-- One caller-visible SubMaker operation. -/
inductive SubOp where
  | feed (msg : TTSChunk)
  | merge (words : Int)

/-- Apply one operation; a failed operation leaves the cue list unchanged
(the Go methods return an error before mutating in their failure cases). -/
def applySubOp (cues : List Subtitle) : SubOp → List Subtitle
  | .feed m => match Feed cues m with
    | .ok l => l
    | .error _ => cues
  | .merge w => match MergeCues w cues with
    | .ok l => l
    | .error _ => cues

/-- Run a sequence of operations from a given cue list. -/
def runSubOps (cues : List Subtitle) : List SubOp → List Subtitle
  | [] => cues
  | op :: rest => runSubOps (applySubOp cues op) rest

/-- The index invariant: the cue indices are exactly `1..N`. -/
def indexOk (cues : List Subtitle) : Prop :=
  cues.map Subtitle.index = List.range' 1 cues.length

/-! ## Communicate / stream coordinator (`pkg/communicate`, in
`src/pkg/voices/voices.go`) -/

/-- `types.CommunicateState`: mutable coordinator state. -/
structure CommunicateState where
  partialText : List Nat
  offsetCompensation : Int
  lastDurationOffset : Int
  streamWasCalled : Bool
deriving DecidableEq, Repr

/-- The fresh state built by `NewCommunicate`. -/
def initialCommunicateState : CommunicateState :=
  { partialText := [], offsetCompensation := 0, lastDurationOffset := 0,
    streamWasCalled := false }

/-- The fixed trailing-padding constant added to `OffsetCompensation` at
each `turn.end` (`streamPartialText`, 8_750_000 ticks). -/
def fixedPaddingTicks : Int := 8750000

/-- Result of a (partial or full) stream run: the chunks forwarded on the
chunk channel in order, the final coordinator state, and the terminal
error if any. -/
structure StreamResult where
  events : List TTSChunk
  state : CommunicateState
  err : Option TTSErr
deriving DecidableEq, Repr

/-- The receive loop of `streamPartialText`, driven by the list of chunks
the session's `ReceiveMessage` yields in order.  `audio` is the
`audioWasReceived` flag.  Audio chunks are forwarded; boundary chunks are
forwarded as-is and update `LastDurationOffset`; `turn.end` updates
`OffsetCompensation` and exits; any other chunk type is ignored.  An
exhausted message list models the websocket read failing
(connection closed before `turn.end`). -/
def receiveLoop (st : CommunicateState) (audio : Bool) :
    List TTSChunk → StreamResult
  | [] => { events := [], state := st, err := some (.webSocketErr "connection closed") }
  | c :: rest =>
    if c.type = "audio" then
      let r := receiveLoop st true rest
      { r with events := c :: r.events }
    else if c.type = "WordBoundary" ∨ c.type = "SentenceBoundary" then
      let st' := { st with lastDurationOffset := c.offset + c.duration }
      let r := receiveLoop st' audio rest
      { r with events := c :: r.events }
    else if c.type = "turn.end" then
      let st' := { st with offsetCompensation := st.lastDurationOffset + fixedPaddingTicks }
      { events := [], state := st',
        err := if audio then none
               else some (.noAudioReceived "no audio was received") }
    else
      receiveLoop st audio rest

/-- One session's input: the text segment assigned to it and the chunks
its websocket yields.  Connection and send steps are modelled as
succeeding (their failures abort with the transport error untouched by
any of the claims below). -/
structure SessionInput where
  text : List Nat
  msgs : List TTSChunk

/-- The `for _, partialText := range c.texts` loop of `Stream`:
run one `streamPartialText` per segment, stopping at the first error. -/
def streamRun (st : CommunicateState) : List SessionInput → StreamResult
  | [] => { events := [], state := st, err := none }
  | s :: rest =>
    let st₁ := { st with partialText := s.text }
    let r := receiveLoop st₁ false s.msgs
    match r.err with
    | some e => { events := r.events, state := r.state, err := some e }
    | none =>
      let r' := streamRun r.state rest
      { events := r.events ++ r'.events, state := r'.state, err := r'.err }

/-- `Communicate.Stream`: one-shot guard, then the segment loop. -/
def Stream (st : CommunicateState) (sessions : List SessionInput) : StreamResult :=
  if st.streamWasCalled then
    { events := [], state := st, err := some .invalidReuse }
  else
    streamRun { st with streamWasCalled := true } sessions

/-! ## SHA-256 (models `crypto/sha256.Sum256` from the Go standard
library, used by `GenerateSecMSGEC`).  Words are `Nat`s kept below
`2^32` by explicit reduction. -/

/-- `2^32`. -/
def m32 : Nat := 4294967296

/-- 32-bit right rotation (input assumed `< 2^32`). -/
def rotr32 (n x : Nat) : Nat :=
  (x >>> n) ||| ((x <<< (32 - n)) % m32)

/-- Small sigma 0. -/
def shaS0 (x : Nat) : Nat := (rotr32 7 x) ^^^ (rotr32 18 x) ^^^ (x >>> 3)

/-- Small sigma 1. -/
def shaS1 (x : Nat) : Nat := (rotr32 17 x) ^^^ (rotr32 19 x) ^^^ (x >>> 10)

/-- Big sigma 0. -/
def shaE0 (x : Nat) : Nat := (rotr32 2 x) ^^^ (rotr32 13 x) ^^^ (rotr32 22 x)

/-- Big sigma 1. -/
def shaE1 (x : Nat) : Nat := (rotr32 6 x) ^^^ (rotr32 11 x) ^^^ (rotr32 25 x)

/-- The 64 SHA-256 round constants (decimal). -/
def shaK : List Nat :=
  [1116352408, 1899447441, 3049323471, 3921009573, 961987163,
   1508970993, 2453635748, 2870763221, 3624381080, 310598401,
   607225278, 1426881987, 1925078388, 2162078206, 2614888103,
   3248222580, 3835390401, 4022224774, 264347078, 604807628,
   770255983, 1249150122, 1555081692, 1996064986, 2554220882,
   2821834349, 2952996808, 3210313671, 3336571891, 3584528711,
   113926993, 338241895, 666307205, 773529912, 1294757372,
   1396182291, 1695183700, 1986661051, 2177026350, 2456956037,
   2730485921, 2820302411, 3259730800, 3345764771, 3516065817,
   3600352804, 4094571909, 275423344, 430227734, 506948616,
   659060556, 883997877, 958139571, 1322822218, 1537002063,
   1747873779, 1955562222, 2024104815, 2227730452, 2361852424,
   2428436474, 2756734187, 3204031479, 3329325298]

/-- The initial SHA-256 hash state (decimal). -/
def shaH0 : List Nat :=
  [1779033703, 3144134277, 1013904242, 2773480762,
   1359893119, 2600822924, 528734635, 1541459225]

/-- Big-endian 64-bit byte encoding. -/
def be64 (n : Nat) : List Nat :=
  (List.range 8).map fun i => (n >>> ((7 - i) * 8)) % 256

/-- Big-endian 32-bit byte encoding. -/
def be32 (n : Nat) : List Nat :=
  (List.range 4).map fun i => (n >>> ((3 - i) * 8)) % 256

/-- SHA-256 padding: append `0x80`, zeros, and the 64-bit bit length. -/
def shaPad (msg : List Nat) : List Nat :=
  let len := msg.length
  let zeros := (64 - (len + 9) % 64) % 64
  msg ++ [128] ++ List.replicate zeros 0 ++ be64 (len * 8)

/-- Split a padded message into 64-byte blocks (fuel = list length, which
bounds the number of blocks). -/
def shaBlocks : Nat → List Nat → List (List Nat)
  | 0, _ => []
  | _ + 1, [] => []
  | f + 1, l => l.take 64 :: shaBlocks f (l.drop 64)

/-- The first 16 schedule words of a block, big-endian. -/
def wordsOfBlock (b : List Nat) : Array Nat :=
  ((List.range 16).map fun i =>
    ((b.getD (4 * i) 0) <<< 24) + ((b.getD (4 * i + 1) 0) <<< 16) +
    ((b.getD (4 * i + 2) 0) <<< 8) + b.getD (4 * i + 3) 0).toArray

/-- Extend the message schedule by `n` words. -/
def extendSchedule : Nat → Array Nat → Array Nat
  | 0, w => w
  | n + 1, w =>
    let s := w.size
    extendSchedule n (w.push
      ((w.getD (s - 16) 0 + shaS0 (w.getD (s - 15) 0) +
        w.getD (s - 7) 0 + shaS1 (w.getD (s - 2) 0)) % m32))

/-- One compression round. -/
def shaRound (s : Nat × Nat × Nat × Nat × Nat × Nat × Nat × Nat) (kw : Nat × Nat) :
    Nat × Nat × Nat × Nat × Nat × Nat × Nat × Nat :=
  let (a, b, c, d, e, f, g, h) := s
  let ch := (e &&& f) ^^^ ((e ^^^ 4294967295) &&& g)
  let maj := (a &&& b) ^^^ (a &&& c) ^^^ (b &&& c)
  let t1 := (h + shaE1 e + ch + kw.1 + kw.2) % m32
  let t2 := (shaE0 a + maj) % m32
  ((t1 + t2) % m32, a, b, c, (d + t1) % m32, e, f, g)

/-- Compress one block into the running hash state. -/
def shaCompress (hs : List Nat) (block : List Nat) : List Nat :=
  let w := extendSchedule 48 (wordsOfBlock block)
  let a0 := hs.getD 0 0
  let b0 := hs.getD 1 0
  let c0 := hs.getD 2 0
  let d0 := hs.getD 3 0
  let e0 := hs.getD 4 0
  let f0 := hs.getD 5 0
  let g0 := hs.getD 6 0
  let h0 := hs.getD 7 0
  let (a, b, c, d, e, f, g, h) :=
    (shaK.zip w.toList).foldl shaRound (a0, b0, c0, d0, e0, f0, g0, h0)
  [(a0 + a) % m32, (b0 + b) % m32, (c0 + c) % m32, (d0 + d) % m32,
   (e0 + e) % m32, (f0 + f) % m32, (g0 + g) % m32, (h0 + h) % m32]

/-- SHA-256 digest (32 bytes) of a byte list. -/
def sha256 (msg : List Nat) : List Nat :=
  let padded := shaPad msg
  let final := (shaBlocks padded.length padded).foldl shaCompress shaH0
  final.flatMap be32

/-- One uppercase hexadecimal digit. -/
def hexDigitU (n : Nat) : Char :=
  if n < 10 then Char.ofNat (48 + n) else Char.ofNat (55 + n)

/-- Uppercase hex string of a byte list (Go `fmt.Sprintf("%X", hash)`). -/
def bytesToHexUpper (l : List Nat) : String :=
  String.mk (l.flatMap fun b => [hexDigitU (b / 16), hexDigitU (b % 16)])

/-! ## DRM / token generation (`internal/drm`), with the process-wide
clock-skew state passed explicitly: `now` is the unadjusted Unix time in
seconds and `skew` the current `clockSkewSeconds`.  Both are integral in
every reachable state of the Go program (timestamps come from
`time.Unix()` and skew deltas are differences of parsed whole-second
dates), so the `float64` arithmetic of the source is exact and is
embedded over `Int`. -/

/-- `constants.TrustedClientToken`. -/
def TrustedClientToken : String := "6A5AA1D4EAFF4E9FB37E23D68491D6F4"

/-- `constants.WinEpoch`: seconds between 1601-01-01 and 1970-01-01. -/
def WinEpoch : Int := 11644473600

/-- `drm.GetUnixTimestamp`: skew-corrected Unix time. -/
def GetUnixTimestamp (now skew : Int) : Int := now + skew

/-- `drm.AdjClockSkewSeconds`: accumulate a skew delta. -/
def AdjClockSkewSeconds (skew delta : Int) : Int := skew + delta

/-- `drm.GenerateSecMSGEC`: floor the 1601-epoch skew-corrected time to a
300-second boundary, scale to 100-ns ticks, concatenate with the trusted
client token, and return the uppercase hex SHA-256 digest
(`math.Floor` is embedded as `Int.fdiv`). -/
def GenerateSecMSGEC (now skew : Int) : String :=
  let ticks0 := GetUnixTimestamp now skew
  let ticks1 := ticks0 + WinEpoch
  let ticks2 := (Int.fdiv ticks1 300) * 300
  let ticks3 := ticks2 * 10000000
  bytesToHexUpper (sha256 (strB (toString ticks3 ++ TrustedClientToken)))

/-- Outcome of the Go standard library's HTTP-date parse of a `Date`
response header (`time.Parse(time.RFC1123, date)`, an external
collaborator): either a malformed raw string or a whole-second Unix
timestamp. -/
inductive DateHeaderVal where
  | malformed (raw : String)
  | valid (epochSeconds : Int)
deriving DecidableEq, Repr

/-- The part of an HTTP response that `HandleClientResponseError` and
`Connect` inspect; `dateHeader = none` models a response without a `Date`
header (`resp.Header.Get("Date") == ""`). -/
structure HTTPResponse where
  statusCode : Nat
  dateHeader : Option DateHeaderVal
deriving DecidableEq, Repr

/-- `drm.ParseRFC2616Date` over the modelled parse outcome. -/
def ParseRFC2616Date : DateHeaderVal → Option Int
  | .malformed _ => none
  | .valid t => some t

/-- `drm.HandleClientResponseError`: returns the error (if any) and the
updated skew state. -/
def HandleClientResponseError (now skew : Int) (resp : Option HTTPResponse) :
    Option TTSErr × Int :=
  match resp with
  | none => (some (.skewAdjustment "no response"), skew)
  | some r =>
    match r.dateHeader with
    | none => (some (.skewAdjustment "no server date in headers"), skew)
    | some d =>
      match ParseRFC2616Date d with
      | none => (some (.skewAdjustment "failed to parse server date"), skew)
      | some serverDateParsed =>
        let clientDate := GetUnixTimestamp now skew
        (none, AdjClockSkewSeconds skew (serverDateParsed - clientDate))

/-- Outcome of one websocket dial attempt: success, or failure with the
handshake's HTTP response when one was received. -/
inductive DialResult where
  | ok
  | err (resp : Option HTTPResponse)
deriving DecidableEq, Repr

/-- Result of `websocket.Client.Connect`: terminal error (if any), final
skew state, and the number of dial attempts made. -/
structure ConnectResult where
  err : Option TTSErr
  skew : Int
  attempts : Nat
deriving DecidableEq, Repr

/-- `websocket.Client.Connect` over the outcomes of the (at most two)
dial attempts.  On a first failure with a 403 response, skew correction
runs; if it fails its error is returned with no retry; otherwise exactly
one retry is made.  `dialFailure` stands for returning the dialer's own
error. -/
def Connect (now skew : Int) (d1 d2 : DialResult) : ConnectResult :=
  match d1 with
  | .ok => { err := none, skew := skew, attempts := 1 }
  | .err resp =>
    match resp with
    | some r =>
      if r.statusCode = 403 then
        match HandleClientResponseError now skew (some r) with
        | (some e, skew') => { err := some e, skew := skew', attempts := 1 }
        | (none, skew') =>
          match d2 with
          | .ok => { err := none, skew := skew', attempts := 2 }
          | .err _ => { err := some .dialFailure, skew := skew', attempts := 2 }
      else { err := some .dialFailure, skew := skew, attempts := 1 }
    | none => { err := some .dialFailure, skew := skew, attempts := 1 }

/-! ## Websocket inbound binary frames
(`websocket.Client.ReceiveMessage`, `BinaryMessage` case). -/

/-- `bytes.Split(data, []byte("\r\n"))`: split on every (leftmost,
non-overlapping) CRLF occurrence. -/
def crlfSplit : List Nat → List (List Nat)
  | [] => [[]]
  | [x] => [[x]]
  | x :: y :: rest =>
    if x = 13 ∧ y = 10 then
      [] :: crlfSplit rest
    else
      match crlfSplit (y :: rest) with
      | [] => [[x]]
      | z :: zs => (x :: z) :: zs

/-- `bytes.SplitN(line, []byte(":"), 2)`: the part before the first colon
and the part after it, or `none` when the line has no colon (in which
case Go's `SplitN` returns a single part and the line is skipped). -/
def colonSplit2 : List Nat → Option (List Nat × List Nat)
  | [] => none
  | x :: rest =>
    if x = 58 then some ([], rest)
    else (colonSplit2 rest).map fun p => (x :: p.1, p.2)

/-- Go map insertion (`headers[k] = v`): replace an existing binding for
`k` or append a new one. -/
def mapSet (m : List (List Nat × List Nat)) (k v : List Nat) :
    List (List Nat × List Nat) :=
  match m with
  | [] => [(k, v)]
  | (k', v') :: rest => if k' = k then (k, v) :: rest else (k', v') :: mapSet rest k v

/-- Go map lookup (`v, ok := headers[k]`). -/
def mapGet (k : List Nat) : List (List Nat × List Nat) → Option (List Nat)
  | [] => none
  | (k', v) :: rest => if k' = k then some v else mapGet k rest

/-- The header-parsing loop of the binary branch of `ReceiveMessage`:
empty lines and lines without a colon are skipped, values (not keys) are
whitespace-trimmed. -/
def buildBinHeaders (lines : List (List Nat)) : List (List Nat × List Nat) :=
  lines.foldl
    (fun m line =>
      if line = [] then m
      else
        match colonSplit2 line with
        | none => m
        | some (k, v) => mapSet m k (trimSpaceB v))
    []

/-- The `BinaryMessage` case of `websocket.Client.ReceiveMessage`:
2-byte big-endian header length, header block, audio payload, and the
`Path`/`Content-Type` case analysis. -/
def ReceiveBinaryMessage (data : List Nat) : Except TTSErr TTSChunk :=
  if data.length < 2 then
    .error (.unexpectedResponse (strB "binary message is too short"))
  else
    match data with
    | [] => .error (.unexpectedResponse (strB "binary message is too short"))
    | [_] => .error (.unexpectedResponse (strB "binary message is too short"))
    | b0 :: b1 :: _ =>
      let headerLength := b0 * 256 + b1
      if headerLength + 2 > data.length then
        .error (.unexpectedResponse (strB "header length is greater than the length of the data"))
      else
        let audioBinaryData := data.drop (headerLength + 2)
        let headerData := (data.drop 2).take headerLength
        let headers := buildBinHeaders (crlfSplit headerData)
        match mapGet (strB "Path") headers with
        | none =>
          .error (.unexpectedResponse (strB "received binary message, but the path is not audio"))
        | some p =>
          if p ≠ strB "audio" then
            .error (.unexpectedResponse (strB "received binary message, but the path is not audio"))
          else
            match mapGet (strB "Content-Type") headers with
            | none =>
              if audioBinaryData = [] then
                .ok { type := "audio", data := [], duration := 0, offset := 0, text := "" }
              else
                .error (.unexpectedResponse (strB "received binary message with no Content-Type, but with data"))
            | some contentType =>
              if contentType ≠ strB "audio/mpeg" then
                .error (.unexpectedResponse
                  (strB "received binary message, but with an unexpected Content-Type: " ++ contentType))
              else if audioBinaryData = [] then
                .error (.unexpectedResponse (strB "received binary message, but it is missing the audio data"))
              else
                .ok { type := "audio", data := audioBinaryData, duration := 0, offset := 0, text := "" }

/-- An inbound binary frame with `Path: audio`, an optional
`Content-Type` header with value `ct`, and the given payload, as laid out
on the wire (2-byte big-endian header length, header block, payload). -/
def mkAudioFrame (ct : Option (List Nat)) (payload : List Nat) : List Nat :=
  let block := strB "Path:audio" ++
    (match ct with
     | none => []
     | some v => [13, 10] ++ strB "Content-Type:" ++ v)
  (block.length / 256) :: (block.length % 256) :: (block ++ payload)

/-! ## Inbound `audio.metadata` bodies (`websocket.Client.parseMetadata`).
The body is modelled after `json.Unmarshal` (external collaborator) has
decoded it: a list of entries, where `none` stands for a list element
that is not a JSON object, and each `Option` field stands for a Go type
assertion that can fail. -/

/-- The nested `"text"` object of a metadata entry's `Data`. -/
structure MetaText where
  textVal : Option String
deriving DecidableEq, Repr

/-- The `"Data"` object of a metadata entry. -/
structure MetaData where
  offset : Option Int
  duration : Option Int
  textField : Option MetaText
deriving DecidableEq, Repr

/-- A decoded metadata entry: its `"Type"` string and `"Data"` object,
when present with the expected dynamic types. -/
structure MetaEntry where
  type : Option String
  data : Option MetaData
deriving DecidableEq, Repr

/-- `websocket.Client.parseMetadata`: skip `SessionEnd` entries and
malformed entries, convert the first `WordBoundary` entry to a chunk,
fail with an unknown-response error on any other entry type, and fail
with an unexpected-response error when no `WordBoundary` entry exists.
Like the source, it takes no boundary-mode configuration: the boundary
type is hard-coded to `"WordBoundary"`. -/
def parseMetadata : List (Option MetaEntry) → Except TTSErr TTSChunk
  | [] => .error (.unexpectedResponse (strB "no WordBoundary metadata found"))
  | none :: rest => parseMetadata rest
  | some e :: rest =>
    match e.type with
    | none => parseMetadata rest
    | some metaType =>
      if metaType = "WordBoundary" then
        match e.data with
        | none => parseMetadata rest
        | some d =>
          match d.offset with
          | none => parseMetadata rest
          | some off =>
            match d.duration with
            | none => parseMetadata rest
            | some dur =>
              match d.textField with
              | none => parseMetadata rest
              | some td =>
                match td.textVal with
                | none => parseMetadata rest
                | some text =>
                  .ok { type := metaType, data := [], duration := dur, offset := off, text := text }
      else if metaType = "SessionEnd" then
        parseMetadata rest
      else
        .error (.unknownResponse (strB ("unknown metadata type: " ++ metaType)))

/-! ## Outbound command frame (`websocket.Client.SendCommandRequest`). -/

/-- The fixed JSON payload of the session-start command frame. -/
def commandJsonPayload : String :=
  "\x7b\"context\":\x7b\"synthesis\":\x7b\"audio\":\x7b\"metadataoptions\":\x7b\"sentenceBoundaryEnabled\":\"false\",\"wordBoundaryEnabled\":\"true\"\x7d,\"outputFormat\":\"audio-24khz-48kbitrate-mono-mp3\"\x7d\x7d\x7d\x7d"

/-- Everything in the command frame after the timestamp value: the
remaining headers, the blank-line separator, and the fixed JSON payload. -/
def commandFixedRest : String :=
  "\r\nContent-Type:application/json; charset=utf-8\r\nPath:speech.config\r\n\r\n" ++
    commandJsonPayload

/-- The command frame `SendCommandRequest` writes, as a function of the
only varying input (the `X-Timestamp` value from `util.DateToString`).
The function has no configuration parameter because the source builds the
message from a constant format string. -/
def sendCommandMessage (timestamp : String) : String :=
  "X-Timestamp:" ++ timestamp ++ commandFixedRest

/-! ## Text chunking (`util.SplitTextByByteLength`). -/

/-- Last index of byte `b` in `l` (defined value; callers consult
`List.contains` first, mirroring Go's `-1` convention via `Option` in
`lastIdxOf?`). -/
def lastIdxOfD (b : Nat) (l : List Nat) : Nat :=
  l.length - 1 - l.reverse.findIdx (· = b)

/-- `bytes.LastIndex(l, [b])` with `none` for Go's `-1`. -/
def lastIdxOf? (b : Nat) (l : List Nat) : Option Nat :=
  if l.contains b then some (lastIdxOfD b l) else none

/-- The entity-safety backoff loop of `SplitTextByByteLength`: while the
window before `splitAt` contains an `&` not terminated by a `;` before
`splitAt`, move `splitAt` to just before that `&`.  `none` models the
panic (`splitAt` would become negative).  The fuel argument strictly
exceeds the recursion depth whenever it is at least `splitAt + 1`
(each step strictly decreases `splitAt`). -/
def ampBackoff (text : List Nat) : Nat → Nat → Option Nat
  | 0, _ => none
  | f + 1, s =>
    if (text.take s).contains 38 then
      let ai := lastIdxOfD 38 (text.take s)
      if ((text.take s).drop ai).contains 59 then some s
      else if ai = 0 then none
      else if ai = 1 then some 0
      else ampBackoff text f (ai - 1)
    else some s

/-- The tentative split position: the last space in the window of `L`
bytes, or `L` itself when the window has no space. -/
def splitAt0 (L : Nat) (text : List Nat) : Nat :=
  match lastIdxOf? 32 (text.take L) with
  | some i => i
  | none => L

/-- The main loop of `SplitTextByByteLength` (fuel strictly exceeds the
iteration count whenever it is at least `text.length + 1`, since every
iteration consumes at least one byte).  `none` models the panic. -/
def splitLoopGo (L : Nat) : Nat → List Nat → Option (List (List Nat))
  | 0, _ => none
  | f + 1, text =>
    if text.length > L then
      match ampBackoff text (splitAt0 L text + 1) (splitAt0 L text) with
      | none => none
      | some s =>
        match splitLoopGo L f (text.drop (if s = 0 then 1 else s)) with
        | none => none
        | some rest =>
          some (if trimSpaceB (text.take s) = [] then rest
                else trimSpaceB (text.take s) :: rest)
    else
      if trimSpaceB text = [] then some [] else some [trimSpaceB text]

/-- `util.SplitTextByByteLength`: `none` models the panics (non-positive
limit, or a window too small to split safely). -/
def SplitTextByByteLength (text : List Nat) (byteLength : Int) : Option (List (List Nat)) :=
  if byteLength ≤ 0 then none
  else splitLoopGo byteLength.toNat (text.length + 1) text

/-- Number of non-whitespace bytes. -/
def countNonSpace (l : List Nat) : Nat :=
  (l.filter fun b => !isSpaceB b).length

/-! ## Concrete two-segment scenario used to exercise the coordinator. -/

/-- First session of the scenario: one audio chunk, one boundary at
offset 0 with duration 10,000,000 ticks, then `turn.end`. -/
def scenarioSession1 : SessionInput :=
  { text := strB "seg1",
    msgs := [{ type := "audio", data := [1], duration := 0, offset := 0, text := "" },
             { type := "WordBoundary", data := [], duration := 10000000, offset := 0, text := "a" },
             { type := "turn.end", data := [], duration := 0, offset := 0, text := "" }] }

/-- Second session of the scenario: one audio chunk, one boundary at
offset 0 with duration 5,000,000 ticks, then `turn.end`. -/
def scenarioSession2 : SessionInput :=
  { text := strB "seg2",
    msgs := [{ type := "audio", data := [2], duration := 0, offset := 0, text := "" },
             { type := "WordBoundary", data := [], duration := 5000000, offset := 0, text := "b" },
             { type := "turn.end", data := [], duration := 0, offset := 0, text := "" }] }

/-! # Theorems -/

/-! ## SubMaker lemmas -/

theorem mergeRun_ne_nil (w : Nat) (cur : Subtitle) (l : List Subtitle) :
    mergeRun w cur l ≠ [] := by
  induction l generalizing cur with
  | nil => simp [mergeRun]
  | cons c rest ih =>
    simp only [mergeRun]
    split
    · exact ih _
    · simp

theorem reindexFrom_ne_nil (i : Nat) (c : Subtitle) (l : List Subtitle) :
    reindexFrom i (c :: l) ≠ [] := by
  simp [reindexFrom]

theorem mergeRun_dropLast (w : Nat) (l : List Subtitle) (cur : Subtitle) :
    ∀ x ∈ (mergeRun w cur l).dropLast, w ≤ fieldsCount x.content := by
  induction l generalizing cur with
  | nil => simp [mergeRun]
  | cons c rest ih =>
    intro x hx
    by_cases hc : fieldsCount cur.content < w
    · rw [mergeRun, if_pos hc] at hx
      exact ih _ x hx
    · rw [mergeRun, if_neg hc,
        List.dropLast_cons_of_ne_nil (mergeRun_ne_nil w c rest)] at hx
      rcases List.mem_cons.mp hx with hx | hx
      · subst hx; omega
      · exact ih _ x hx

theorem mergeRun_eq_self (w : Nat) (l : List Subtitle) (cur : Subtitle)
    (h : ∀ x ∈ (cur :: l).dropLast, w ≤ fieldsCount x.content) :
    mergeRun w cur l = cur :: l := by
  induction l generalizing cur with
  | nil => simp [mergeRun]
  | cons c rest ih =>
    have hcur : w ≤ fieldsCount cur.content := by
      apply h
      rw [List.dropLast_cons_of_ne_nil (by simp : c :: rest ≠ [])]
      simp
    simp only [mergeRun, if_neg (by omega : ¬ fieldsCount cur.content < w)]
    rw [ih c]
    intro x hx
    apply h
    rw [List.dropLast_cons_of_ne_nil (by simp : c :: rest ≠ [])]
    exact List.mem_cons_of_mem _ hx

theorem reindexFrom_dropLast (i : Nat) (l : List Subtitle) :
    (reindexFrom i l).dropLast = reindexFrom i l.dropLast := by
  induction l generalizing i with
  | nil => simp [reindexFrom]
  | cons c rest ih =>
    cases rest with
    | nil => simp [reindexFrom]
    | cons d rest' =>
      have h1 : reindexFrom i (c :: d :: rest') =
          { c with index := i } :: reindexFrom (i + 1) (d :: rest') := rfl
      rw [h1, List.dropLast_cons_of_ne_nil (reindexFrom_ne_nil _ _ _), ih,
        List.dropLast_cons_of_ne_nil (by simp : d :: rest' ≠ [])]
      rfl

theorem reindexFrom_content (i : Nat) (l : List Subtitle) :
    ∀ x ∈ reindexFrom i l, ∃ y ∈ l, x.content = y.content := by
  induction l generalizing i with
  | nil => simp [reindexFrom]
  | cons c rest ih =>
    intro x hx
    have h1 : reindexFrom i (c :: rest) =
        { c with index := i } :: reindexFrom (i + 1) rest := rfl
    rw [h1] at hx
    rcases List.mem_cons.mp hx with hx | hx
    · exact ⟨c, by simp, by subst hx; rfl⟩
    · obtain ⟨y, hy, hxy⟩ := ih (i + 1) x hx
      exact ⟨y, List.mem_cons_of_mem _ hy, hxy⟩

theorem reindexFrom_idem (i : Nat) (l : List Subtitle) :
    reindexFrom i (reindexFrom i l) = reindexFrom i l := by
  induction l generalizing i with
  | nil => rfl
  | cons c rest ih => simp [reindexFrom, ih]

theorem reindexFrom_map_index (i : Nat) (l : List Subtitle) :
    (reindexFrom i l).map Subtitle.index = List.range' i l.length := by
  induction l generalizing i with
  | nil => rfl
  | cons c rest ih => simp [reindexFrom, ih, List.range'_succ]

theorem reindexFrom_length (i : Nat) (l : List Subtitle) :
    (reindexFrom i l).length = l.length := by
  induction l generalizing i with
  | nil => rfl
  | cons c rest ih => simp [reindexFrom, ih]

/-- Claim C4: `MergeCues` is idempotent — for every cue list and every
threshold, a second application of `MergeCues` with the same threshold
returns the output of the first application unchanged (indices, times and
text included). -/
theorem claim_C4_MergeCues_idempotent (n : Int) (cues l : List Subtitle)
    (h : MergeCues n cues = .ok l) : MergeCues n l = .ok l := by
  unfold MergeCues at h ⊢
  by_cases hn : n ≤ 0
  · simp [hn] at h
  · simp only [if_neg hn] at h ⊢
    cases cues with
    | nil =>
      have h' : l = [] := by
        have : Except.ok ([] : List Subtitle) = (.ok l : Except String (List Subtitle)) := h
        injection this with h2
        exact h2.symm
      subst h'
      rfl
    | cons c rest =>
      have h' : Except.ok (reindexFrom 1 (mergeRun n.toNat c rest)) =
          (.ok l : Except String (List Subtitle)) := h
      injection h' with h'
      subst h'
      cases hL : reindexFrom 1 (mergeRun n.toNat c rest) with
      | nil => rfl
      | cons l0 ltail =>
        show Except.ok (reindexFrom 1 (mergeRun n.toNat l0 ltail)) = _
        rw [mergeRun_eq_self]
        · rw [← hL, reindexFrom_idem]
        · intro x hx
          rw [← hL, reindexFrom_dropLast] at hx
          obtain ⟨y, hy, hxy⟩ := reindexFrom_content _ _ x hx
          rw [hxy]
          exact mergeRun_dropLast n.toNat rest c y hy

/-- Witness for C4 at a concrete cue list and threshold: merging
`["aa", "bb", "cc dd"]` with threshold 2 gives `["aa bb", "cc dd"]`, and
merging again returns it unchanged. -/
theorem claim_C4_MergeCues_idempotent_witness :
    MergeCues 2
      [{ index := 1, start := 0, stop := 20, content := "aa bb" },
       { index := 2, start := 20, stop := 30, content := "cc dd" }] =
      .ok [{ index := 1, start := 0, stop := 20, content := "aa bb" },
           { index := 2, start := 20, stop := 30, content := "cc dd" }] :=
  claim_C4_MergeCues_idempotent 2
    [{ index := 1, start := 0, stop := 10, content := "aa" },
     { index := 2, start := 10, stop := 20, content := "bb" },
     { index := 3, start := 20, stop := 30, content := "cc dd" }]
    [{ index := 1, start := 0, stop := 20, content := "aa bb" },
     { index := 2, start := 20, stop := 30, content := "cc dd" }] (by rfl)

/-- Claim C9: after every finite sequence of `Feed` and `MergeCues`
operations on a fresh SubMaker (failed operations leaving the state
unchanged), the cue indices are exactly `1..N`. -/
theorem claim_C9_indices_contiguous (ops : List SubOp) :
    indexOk (runSubOps [] ops) := by
  have step : ∀ (cues : List Subtitle) (op : SubOp),
      indexOk cues → indexOk (applySubOp cues op) := by
    intro cues op h
    cases op with
    | feed m =>
      by_cases hm : m.type ≠ "WordBoundary" ∧ m.type ≠ "SentenceBoundary"
      · have happ : applySubOp cues (.feed m) = cues := by
          simp [applySubOp, Feed, hm]
        rw [happ]; exact h
      · have happ : applySubOp cues (.feed m) = cues ++
            [{ index := cues.length + 1,
               start := (m.offset.tdiv 10) * 1000,
               stop := ((m.offset + m.duration).tdiv 10) * 1000,
               content := m.text }] := by
          simp [applySubOp, Feed, hm]
        rw [happ]
        simp only [indexOk, List.map_append, List.length_append]
        rw [h]
        simp [List.range'_concat, Nat.add_comm]
    | merge w =>
      by_cases hw : w ≤ 0
      · have happ : applySubOp cues (.merge w) = cues := by
          simp [applySubOp, MergeCues, hw]
        rw [happ]; exact h
      · cases cues with
        | nil =>
          have happ : applySubOp [] (.merge w) = [] := by
            simp [applySubOp, MergeCues, hw]
          rw [happ]; exact h
        | cons c rest =>
          have happ : applySubOp (c :: rest) (.merge w) =
              reindexFrom 1 (mergeRun w.toNat c rest) := by
            simp [applySubOp, MergeCues, hw]
          rw [happ]
          simp only [indexOk]
          rw [reindexFrom_map_index, reindexFrom_length]
  have main : ∀ (ops : List SubOp) (cues : List Subtitle),
      indexOk cues → indexOk (runSubOps cues ops) := by
    intro ops
    induction ops with
    | nil => intro cues h; exact h
    | cons op rest ih => intro cues h; exact ih _ (step cues op h)
  exact main ops [] (by simp [indexOk, List.range'])

/-! ## Stream coordinator lemmas -/

theorem receiveLoop_streamWasCalled (msgs : List TTSChunk) (st : CommunicateState)
    (audio : Bool) :
    (receiveLoop st audio msgs).state.streamWasCalled = st.streamWasCalled := by
  induction msgs generalizing st audio with
  | nil => rfl
  | cons c rest ih =>
    simp only [receiveLoop]
    split
    · exact ih _ _
    · split
      · exact ih _ _
      · split
        · rfl
        · exact ih _ _

theorem streamRun_streamWasCalled (sessions : List SessionInput) (st : CommunicateState) :
    (streamRun st sessions).state.streamWasCalled = st.streamWasCalled := by
  induction sessions generalizing st with
  | nil => rfl
  | cons s rest ih =>
    simp only [streamRun]
    split
    · rw [receiveLoop_streamWasCalled]
    · rw [ih, receiveLoop_streamWasCalled]

/-- Claim C5: `Stream` may succeed at most once per instance — after any
first call, a second call on the resulting state fails with the
invalid-reuse error, forwards zero chunks, and leaves the state
(including the one-shot guard, already set) completely unchanged. -/
theorem claim_C5_stream_one_shot (st : CommunicateState)
    (sess sess' : List SessionInput) :
    Stream (Stream st sess).state sess' =
      { events := [], state := (Stream st sess).state, err := some .invalidReuse } := by
  have hflag : (Stream st sess).state.streamWasCalled = true := by
    unfold Stream
    split
    · next h => exact h
    · rw [streamRun_streamWasCalled]
  conv_lhs => rw [Stream]
  rw [if_pos hflag]

/-- Claim C1 (code bug): in a two-segment stream where the first segment
ends with `lastDurationEnd = 10,000,000` ticks, the coordinator advances
`OffsetCompensation` to `18,750,000` ticks before the second segment, yet
the boundary of the second segment (session offset 0) is forwarded with
offset 0 — the compensation is never added to forwarded events, so the
forwarded offsets are not shifted onto one monotonic timeline. -/
theorem claim_C1_compensation_not_applied :
    (Stream initialCommunicateState [scenarioSession1, scenarioSession2]).events.map
        (fun c => (c.type, c.offset)) =
      [("audio", 0), ("WordBoundary", 0), ("audio", 0), ("WordBoundary", 0)] ∧
    (receiveLoop { initialCommunicateState with
        streamWasCalled := true, partialText := strB "seg1" }
      false scenarioSession1.msgs).state.offsetCompensation = 18750000 := by
  constructor
  · rfl
  · rfl

/-- Claim C3 (code bug): `parseMetadata` hard-codes the `WordBoundary`
metadata type — a well-formed `SentenceBoundary` entry, which a session
configured with the sentence boundary mode should convert to a boundary
event, is instead rejected with the unknown-response error, while the
identically shaped `WordBoundary` entry is converted. -/
theorem claim_C3_sentence_boundary_rejected :
    parseMetadata [some { type := some "SentenceBoundary",
                          data := some { offset := some 100, duration := some 200,
                                         textField := some { textVal := some "hi" } } }] =
      .error (.unknownResponse (strB "unknown metadata type: SentenceBoundary")) ∧
    parseMetadata [some { type := some "WordBoundary",
                          data := some { offset := some 100, duration := some 200,
                                         textField := some { textVal := some "hi" } } }] =
      .ok { type := "WordBoundary", data := [], duration := 200, offset := 100, text := "hi" } := by
  constructor
  · rfl
  · rfl

/-- Claim C7: `GenerateSecMSGEC` depends on the skew-corrected time only
through the 300-second window containing it — two calls whose
skew-corrected times (after the 1601-epoch shift) fall in the same
300-second window return the identical uppercase-hex SHA-256 token. -/
theorem claim_C7_token_window (now₁ now₂ skew : Int)
    (h : Int.fdiv (now₁ + skew + WinEpoch) 300 = Int.fdiv (now₂ + skew + WinEpoch) 300) :
    GenerateSecMSGEC now₁ skew = GenerateSecMSGEC now₂ skew := by
  simp only [GenerateSecMSGEC, GetUnixTimestamp]
  rw [h]

/-- Witness for C7: two concrete times 50 seconds apart in the same
300-second window yield the same token. -/
theorem claim_C7_token_window_witness :
    GenerateSecMSGEC 1700000000 0 = GenerateSecMSGEC 1700000050 0 :=
  claim_C7_token_window 1700000000 1700000050 0 (by decide)

/-- Claim C10: the command frame is the fixed header block followed by
the fixed JSON payload — only the `X-Timestamp` value varies, and the
payload always carries `sentenceBoundaryEnabled:"false"` and
`wordBoundaryEnabled:"true"` regardless of any configuration (the frame
builder has no configuration input). -/
theorem claim_C10_command_frame_fixed (ts : String) :
    sendCommandMessage ts = "X-Timestamp:" ++ ts ++ commandFixedRest ∧
    (∃ pre post, commandFixedRest =
      pre ++ "\"sentenceBoundaryEnabled\":\"false\",\"wordBoundaryEnabled\":\"true\"" ++ post) := by
  refine ⟨rfl, "\r\nContent-Type:application/json; charset=utf-8\r\nPath:speech.config\r\n\r\n\x7b\"context\":\x7b\"synthesis\":\x7b\"audio\":\x7b\"metadataoptions\":\x7b",
    "\x7d,\"outputFormat\":\"audio-24khz-48kbitrate-mono-mp3\"\x7d\x7d\x7d\x7d", ?_⟩
  rfl

/-- Claim C8: a 403 handshake response whose `Date` header is missing or
unparseable makes skew correction fail with the skew-adjustment error and
leave the skew state unchanged; the connection attempt then fails after a
single dial.  In general at most two dials ever happen, and a second dial
happens only when skew correction succeeded on the first rejection. -/
theorem claim_C8_skew_failure_fatal (now skew : Int) (r : HTTPResponse) (d2 : DialResult)
    (h403 : r.statusCode = 403)
    (hdate : r.dateHeader = none ∨ ∃ s, r.dateHeader = some (.malformed s)) :
    (∃ m, HandleClientResponseError now skew (some r) = (some (.skewAdjustment m), skew) ∧
      Connect now skew (.err (some r)) d2 =
        { err := some (.skewAdjustment m), skew := skew, attempts := 1 }) ∧
    (∀ d1 d2', (Connect now skew d1 d2').attempts ≤ 2 ∧
      ((Connect now skew d1 d2').attempts = 2 →
        ∃ r', d1 = .err (some r') ∧
          (HandleClientResponseError now skew (some r')).1 = none)) := by
  constructor
  · rcases hdate with hdate | ⟨s, hdate⟩
    · exact ⟨"no server date in headers",
        by simp [HandleClientResponseError, hdate],
        by simp [Connect, h403, HandleClientResponseError, hdate]⟩
    · exact ⟨"failed to parse server date",
        by simp [HandleClientResponseError, hdate, ParseRFC2616Date],
        by simp [Connect, h403, HandleClientResponseError, hdate, ParseRFC2616Date]⟩
  · intro d1 d2'
    cases d1 with
    | ok => exact ⟨by simp [Connect], by simp [Connect]⟩
    | err resp =>
      cases resp with
      | none => exact ⟨by simp [Connect], by simp [Connect]⟩
      | some r' =>
        by_cases h4 : r'.statusCode = 403
        · rcases hh : HandleClientResponseError now skew (some r') with ⟨eOpt, sk⟩
          cases eOpt with
          | some e =>
            exact ⟨by simp [Connect, h4, hh], by simp [Connect, h4, hh]⟩
          | none =>
            refine ⟨?_, fun _ => ⟨r', rfl, by rw [hh]⟩⟩
            cases d2' <;> simp [Connect, h4, hh]
        · exact ⟨by simp [Connect, h4], by simp [Connect, h4]⟩

/-- Witness for C8 at a concrete rejection response without a `Date`
header. -/
theorem claim_C8_skew_failure_fatal_witness :
    (∃ m, HandleClientResponseError 1700000000 0 (some ⟨403, none⟩) =
        (some (.skewAdjustment m), 0) ∧
      Connect 1700000000 0 (.err (some ⟨403, none⟩)) .ok =
        { err := some (.skewAdjustment m), skew := 0, attempts := 1 }) ∧
    (∀ d1 d2', (Connect 1700000000 0 d1 d2').attempts ≤ 2 ∧
      ((Connect 1700000000 0 d1 d2').attempts = 2 →
        ∃ r', d1 = .err (some r') ∧
          (HandleClientResponseError 1700000000 0 (some r')).1 = none)) :=
  claim_C8_skew_failure_fatal 1700000000 0 ⟨403, none⟩ .ok rfl (Or.inl rfl)

/-! ## Text splitter lemmas -/

theorem trimSpaceB_sublist (l : List Nat) : List.Sublist (trimSpaceB l) l := by
  unfold trimSpaceB
  have h1 : List.Sublist ((l.dropWhile isSpaceB).reverse.dropWhile isSpaceB)
      (l.dropWhile isSpaceB).reverse := List.dropWhile_sublist _
  have h2 := h1.reverse
  rw [List.reverse_reverse] at h2
  exact h2.trans (List.dropWhile_sublist _)

theorem splitLoopGo_flatten_sublist (L : Nat) :
    ∀ (f : Nat) (text : List Nat) (segs : List (List Nat)),
      splitLoopGo L f text = some segs → List.Sublist segs.flatten text := by
  intro f
  induction f with
  | zero => intro text segs h; exact absurd h (by simp [splitLoopGo])
  | succ f ih =>
    intro text segs h
    rw [splitLoopGo] at h
    by_cases hlen : text.length > L
    · rw [if_pos hlen] at h
      rcases hamp : ampBackoff text (splitAt0 L text + 1) (splitAt0 L text) with _ | s
      · rw [hamp] at h; exact absurd h (by simp)
      · rw [hamp] at h
        have h2 : (match splitLoopGo L f (List.drop (if s = 0 then 1 else s) text) with
            | none => none
            | some rest =>
              some (if trimSpaceB (List.take s text) = [] then rest
                    else trimSpaceB (List.take s text) :: rest)) = some segs := h
        clear h
        rcases hrec : splitLoopGo L f
            (text.drop (if s = 0 then 1 else s)) with _ | rest
        · rw [hrec] at h2; exact absurd h2 (by simp)
        · rw [hrec] at h2
          simp only [Option.some.injEq] at h2
          subst h2
          have hrest := ih _ _ hrec
          by_cases hs : s = 0
          · subst hs
            have hpiece : trimSpaceB (List.take 0 text) = [] := by
              simp [trimSpaceB]
            rw [hpiece]
            simp only [if_pos rfl]
            exact hrest.trans (by simpa using List.drop_sublist 1 text)
          · rw [if_neg hs] at hrest
            by_cases hp : trimSpaceB (text.take s) = []
            · rw [if_pos hp]
              exact hrest.trans (List.drop_sublist _ _)
            · rw [if_neg hp]
              have hpiece : List.Sublist (trimSpaceB (text.take s)) (text.take s) :=
                trimSpaceB_sublist _
              have hj := hpiece.append hrest
              rw [List.take_append_drop] at hj
              simpa using hj
    · rw [if_neg hlen] at h
      by_cases hp : trimSpaceB text = []
      · rw [if_pos hp] at h
        simp only [Option.some.injEq] at h
        subst h
        exact List.nil_sublist _
      · rw [if_neg hp] at h
        simp only [Option.some.injEq] at h
        subst h
        simpa using trimSpaceB_sublist text

/-- Claim C2 (counterexample): on the text `"x&ab; cd"` with limit 4 the
splitter returns `["&ab;", "cd"]` — the non-whitespace byte `x` is lost
(dropped by the forced one-byte advance when the entity backoff moves the
split position to 0), so the segments do not reconstruct the text. -/
theorem claim_C2_counterexample :
    SplitTextByByteLength (strB "x&ab; cd") 4 = some [strB "&ab;", strB "cd"] ∧
    ([strB "&ab;", strB "cd"].map countNonSpace).sum ≠ countNonSpace (strB "x&ab; cd") := by
  constructor
  · decide
  · decide

/-- Claim C2 (amended): whenever the splitter returns, the concatenation
of its segments is an ordered subsequence of the input — no byte is
duplicated or reordered — but beyond the whitespace trimmed at segment
boundaries a byte can be dropped when the entity backoff forces the split
position to 0. -/
theorem claim_C2_amended_no_duplication (text : List Nat) (L : Int)
    (segs : List (List Nat)) (h : SplitTextByByteLength text L = some segs) :
    List.Sublist segs.flatten text := by
  unfold SplitTextByByteLength at h
  by_cases hL : L ≤ 0
  · rw [if_pos hL] at h; exact absurd h (by simp)
  · rw [if_neg hL] at h
    exact splitLoopGo_flatten_sublist _ _ _ _ h

/-- Witness for the amended C2 on a concrete text where the
reconstruction also happens to be loss-free. -/
theorem claim_C2_amended_no_duplication_witness :
    List.Sublist ([strB "ab", strB "cd"] : List (List Nat)).flatten (strB "ab cd") :=
  claim_C2_amended_no_duplication (strB "ab cd") 3 [strB "ab", strB "cd"] (by decide)

/-! ## Binary frame lemmas -/

theorem crlfSplit_cons_ne13 (x : Nat) (hx : x ≠ 13) (l : List Nat) :
    crlfSplit (x :: l) =
      match crlfSplit l with
      | [] => [[x]]
      | z :: zs => (x :: z) :: zs := by
  cases l with
  | nil => simp [crlfSplit]
  | cons y rest =>
    rw [crlfSplit, if_neg (by simp [hx])]

theorem crlfSplit_no13 (l : List Nat) (h : 13 ∉ l) : crlfSplit l = [l] := by
  induction l with
  | nil => rfl
  | cons x rest ih =>
    have hx : x ≠ 13 := by
      intro hx; exact h (hx ▸ List.mem_cons_self x rest)
    rw [crlfSplit_cons_ne13 x hx, ih (fun hm => h (List.mem_cons_of_mem _ hm))]

theorem crlfSplit_append (a b : List Nat) (ha : 13 ∉ a) :
    crlfSplit (a ++ 13 :: 10 :: b) = a :: crlfSplit b := by
  induction a with
  | nil => simp [crlfSplit]
  | cons x a' ih =>
    have hx : x ≠ 13 := by
      intro hx; exact ha (hx ▸ List.mem_cons_self x a')
    rw [List.cons_append, crlfSplit_cons_ne13 x hx,
      ih (fun hm => ha (List.mem_cons_of_mem _ hm))]

theorem ReceiveBinaryMessage_frame (block payload : List Nat) :
    ReceiveBinaryMessage ((block.length / 256) :: (block.length % 256) :: (block ++ payload)) =
      (match mapGet (strB "Path") (buildBinHeaders (crlfSplit block)) with
       | none =>
         .error (.unexpectedResponse (strB "received binary message, but the path is not audio"))
       | some p =>
         if p ≠ strB "audio" then
           .error (.unexpectedResponse (strB "received binary message, but the path is not audio"))
         else
           match mapGet (strB "Content-Type") (buildBinHeaders (crlfSplit block)) with
           | none =>
             if payload = [] then
               .ok { type := "audio", data := [], duration := 0, offset := 0, text := "" }
             else
               .error (.unexpectedResponse (strB "received binary message with no Content-Type, but with data"))
           | some contentType =>
             if contentType ≠ strB "audio/mpeg" then
               .error (.unexpectedResponse
                 (strB "received binary message, but with an unexpected Content-Type: " ++ contentType))
             else if payload = [] then
               .error (.unexpectedResponse (strB "received binary message, but it is missing the audio data"))
             else
               .ok { type := "audio", data := payload, duration := 0, offset := 0, text := "" }) := by
  simp only [ReceiveBinaryMessage]
  rw [if_neg (by simp)]
  have hn : block.length / 256 * 256 + block.length % 256 = block.length := by omega
  rw [hn]
  rw [if_neg (by simp only [List.length_cons, List.length_append]; omega)]
  have hdrop : ((block.length / 256) :: (block.length % 256) :: (block ++ payload)).drop
      (block.length + 2) = payload := by
    have : block.length + 2 = (block.length + 1) + 1 := by omega
    rw [this, List.drop_succ_cons, List.drop_succ_cons, List.drop_left]
  have htake : (((block.length / 256) :: (block.length % 256) :: (block ++ payload)).drop 2).take
      block.length = block := by
    have : (2 : Nat) = 1 + 1 := by omega
    rw [this, List.drop_succ_cons, List.drop_succ_cons, List.drop_zero, List.take_left]
  rw [hdrop, htake]

theorem buildBinHeaders_path_ct (v : List Nat) :
    buildBinHeaders [strB "Path:audio", strB "Content-Type:" ++ v] =
      [(strB "Path", strB "audio"), (strB "Content-Type", trimSpaceB v)] := rfl

/-- Claim C6: decoding a binary frame with `Path: audio` follows exactly
the claimed case analysis on the `Content-Type` header and the payload:
absent header with empty payload gives a zero-length audio event; absent
header with data is an error; a header other than `audio/mpeg` is an
error; `audio/mpeg` with empty payload is an error (not a zero-length
audio event); `audio/mpeg` with data gives an audio event carrying
exactly the payload bytes. -/
theorem claim_C6_binary_frame_cases (ct : Option (List Nat)) (payload : List Nat)
    (hwf : ∀ v, ct = some v → 13 ∉ v ∧ trimSpaceB v = v) :
    ReceiveBinaryMessage (mkAudioFrame ct payload) =
      match ct with
      | none =>
        if payload = [] then
          .ok { type := "audio", data := [], duration := 0, offset := 0, text := "" }
        else
          .error (.unexpectedResponse (strB "received binary message with no Content-Type, but with data"))
      | some v =>
        if v = strB "audio/mpeg" then
          if payload = [] then
            .error (.unexpectedResponse (strB "received binary message, but it is missing the audio data"))
          else
            .ok { type := "audio", data := payload, duration := 0, offset := 0, text := "" }
        else
          .error (.unexpectedResponse
            (strB "received binary message, but with an unexpected Content-Type: " ++ v)) := by
  cases ct with
  | none =>
    have hmk : mkAudioFrame none payload =
        ((strB "Path:audio" ++ []).length / 256) :: ((strB "Path:audio" ++ []).length % 256) ::
          ((strB "Path:audio" ++ []) ++ payload) := rfl
    rw [hmk, ReceiveBinaryMessage_frame]
    have hhdr : buildBinHeaders (crlfSplit (strB "Path:audio" ++ [])) =
        [(strB "Path", strB "audio")] := rfl
    rw [hhdr]
    have hne : strB "Path" ≠ strB "Content-Type" := by decide
    by_cases hp : payload = [] <;> simp [mapGet, hp, hne]
  | some v =>
    obtain ⟨hv13, hvtrim⟩ := hwf v rfl
    have hmk : mkAudioFrame (some v) payload =
        ((strB "Path:audio" ++ (13 :: 10 :: (strB "Content-Type:" ++ v))).length / 256) ::
          ((strB "Path:audio" ++ (13 :: 10 :: (strB "Content-Type:" ++ v))).length % 256) ::
          ((strB "Path:audio" ++ (13 :: 10 :: (strB "Content-Type:" ++ v))) ++ payload) := rfl
    rw [hmk, ReceiveBinaryMessage_frame]
    have hsplit : crlfSplit (strB "Path:audio" ++ (13 :: 10 :: (strB "Content-Type:" ++ v))) =
        [strB "Path:audio", strB "Content-Type:" ++ v] := by
      rw [crlfSplit_append _ _ (by decide),
        crlfSplit_no13 _ (by
          intro hm
          rcases List.mem_append.mp hm with hm | hm
          · revert hm; decide
          · exact hv13 hm)]
    rw [hsplit, buildBinHeaders_path_ct, hvtrim]
    have hne : strB "Path" ≠ strB "Content-Type" := by decide
    by_cases hv : v = strB "audio/mpeg"
    · subst hv
      by_cases hp : payload = [] <;> simp [mapGet, hp, hne]
    · by_cases hp : payload = [] <;> simp [mapGet, hv, hp, hne]

/-- Witness for C6 at a concrete frame: `Content-Type: audio/mpeg` with a
one-byte payload decodes to an audio event carrying that byte. -/
theorem claim_C6_binary_frame_cases_witness :
    ReceiveBinaryMessage (mkAudioFrame (some (strB "audio/mpeg")) [7]) =
      .ok { type := "audio", data := [7], duration := 0, offset := 0, text := "" } := by
  have h := claim_C6_binary_frame_cases (some (strB "audio/mpeg")) [7]
    (fun v hv => by cases hv; exact ⟨by decide, by decide⟩)
  simpa using h

end EdgeTTS
